import Mathlib

/-!
Verification of the OAuth2 authorization-code-with-PKCE manager of this
repository (`oauth2_auth.py`).

The manager is modelled as a pure state machine.  Sources of effects are made
explicit parameters:

* randomness (`secrets.token_urlsafe`, `secrets.token_bytes`) is passed in as
  the fresh state string and the fresh verifier bytes;
* the current clock (`datetime.now()`) is passed in as an integer instant
  `now` (datetimes are abstracted as integers; `datetime.isoformat` and
  `datetime.fromisoformat` are modelled as an injective decimal rendering of
  the instant and its parser);
* one outbound `requests.post` to the token endpoint is modelled by a
  `TokenEndpointResult` argument describing how the endpoint behaved, and
  every operation additionally reports how many such posts it performed;
* Python exceptions are modelled by `Except PyError`; the persisted token
  file is modelled by a `FileState` field holding the JSON content that
  `_save_tokens` writes when the best-effort write succeeds.

Python `dict`s are modelled as association lists with insertion-order
semantics (`dictInsert` replaces in place, `dictErase` deletes the key).
-/

namespace OAuth2

/-- Lookup in an association list modelling a Python `dict` (keys are unique
in any dict the program builds; lookup returns the first match). -/
def dictLookup {α : Type} (k : String) : List (String × α) → Option α
  | [] => none
  | p :: rest => if p.1 = k then some p.2 else dictLookup k rest

/-- Python `d[k] = v`: replace the value in place if the key exists, else
append the new binding (insertion-order semantics of Python dicts). -/
def dictInsert {α : Type} (k : String) (v : α) : List (String × α) → List (String × α)
  | [] => [(k, v)]
  | p :: rest => if p.1 = k then (k, v) :: rest else p :: dictInsert k v rest

/-- Python `del d[k]` / `d.pop(k)`'s removal effect. -/
def dictErase {α : Type} (k : String) (l : List (String × α)) : List (String × α) :=
  l.filter (fun p => p.1 != k)

/-- JSON values as handled by `json.load` / `json.dump`.  Numbers are
restricted to integers, which covers everything this program writes. -/
inductive Json : Type
  | null
  | bool (b : Bool)
  | num (n : Int)
  | str (s : String)
  | arr (elems : List Json)
  | obj (fields : List (String × Json))

/-- Python truthiness of a JSON-decoded value (used by `if expires_at`). -/
def Json.truthy : Json → Bool
  | .null => false
  | .bool b => b
  | .num n => n != 0
  | .str s => s != ""
  | .arr l => !l.isEmpty
  | .obj f => !f.isEmpty

/-- OAuth2 configuration for each service (dataclass `OAuth2Config`). -/
structure OAuth2Config where
  client_id : String
  client_secret : String
  authorization_url : String
  token_url : String
  redirect_uri : String
  scope : String
  service_name : String
  deriving DecidableEq

/-- OAuth2 token data (dataclass `OAuth2Token`).  `access_token` is typed
`Option String` because Python does not enforce the `str` annotation and
`_load_tokens` constructs the dataclass with `tok.get("access_token")`,
which is `None` for an absent or null field. -/
structure OAuth2Token where
  access_token : Option String
  refresh_token : Option String := none
  expires_at : Option Int := none
  token_type : String := "Bearer"
  scope : Option String := none
  deriving DecidableEq

/-- Decimal digit character (model of the rendering used by `isoformat`). -/
def digitChar (d : Nat) : Char := "0123456789".data.getD d '0'

/-- Decimal rendering of a natural number, most significant digit first. -/
def natChars (n : Nat) : List Char :=
  if n = 0 then ['0'] else ((Nat.digits 10 n).map digitChar).reverse

/-- Model of `datetime.isoformat`: an injective decimal rendering of the
abstract integer instant. -/
def isoformat : Int → String
  | .ofNat n => ⟨natChars n⟩
  | .negSucc m => ⟨'-' :: natChars (m + 1)⟩

/-- Numeric value of a decimal digit character. -/
def charDigit (c : Char) : Nat := c.toNat - 48

/-- Is this character a decimal digit? -/
def isDigitChar (c : Char) : Bool := 48 ≤ c.toNat && c.toNat ≤ 57

/-- Parse a non-empty all-digit character list as a natural number. -/
def parseNatChars (cs : List Char) : Option Nat :=
  if cs ≠ [] ∧ cs.all isDigitChar then
    some (Nat.ofDigits 10 ((cs.map charDigit).reverse))
  else none

/-- Model of `datetime.fromisoformat`: parser of `isoformat`; `none` models
the `ValueError` raised on an unparseable string. -/
def fromisoformat (s : String) : Option Int :=
  match s.data with
  | [] => none
  | c :: rest =>
    if c = '-' then (parseNatChars rest).map (fun n => -(n : Int))
    else (parseNatChars (c :: rest)).map (fun n => (n : Int))

/-- Helper for `_save_tokens`: an optional string field serialized to JSON
(`None` becomes JSON null). -/
def optStrJson : Option String → Json
  | none => .null
  | some s => .str s

/-- The JSON record `_save_tokens` writes for a single token. -/
def serializeToken (tok : OAuth2Token) : Json :=
  .obj [("access_token", optStrJson tok.access_token),
        ("refresh_token", optStrJson tok.refresh_token),
        ("expires_at", match tok.expires_at with
          | some t => .str (isoformat t)
          | none => .null),
        ("token_type", .str tok.token_type),
        ("scope", optStrJson tok.scope)]

/-- The full JSON object `_save_tokens` serializes from the token dict. -/
def serializeTokens (tokens : List (String × OAuth2Token)) : Json :=
  .obj (tokens.map (fun p => (p.1, serializeToken p.2)))

/-- Model of the `expires_at` handling in `_load_tokens`:
`datetime.fromisoformat(expires_at) if expires_at else None`.  The outer
`Option` is failure of the loop iteration (`ValueError` from `fromisoformat`
on a bad string, `TypeError` on a truthy non-string). -/
def parseExpires (j : Json) : Option (Option Int) :=
  if j.truthy then
    match j with
    | .str s => (fromisoformat s).map some
    | _ => none
  else some none

/-- Model of `tok.get(k)` for the optional string fields of the token record
(`access_token`, `refresh_token`, `scope`): an absent or null field is
Python `None`.  A field of any other JSON type would be stored unchecked by
the dataclass; such ill-typed records are outside the model and mapped to a
failing entry. -/
def jsonOptStrField (fields : List (String × Json)) (k : String) : Option (Option String) :=
  match dictLookup k fields with
  | none => some none
  | some .null => some none
  | some (.str s) => some (some s)
  | some _ => none

/-- Model of `tok.get("token_type", "Bearer")` (same typing convention as
`jsonOptStrField`). -/
def jsonStrFieldD (fields : List (String × Json)) (k : String) (d : String) : Option String :=
  match dictLookup k fields with
  | none => some d
  | some (.str s) => some s
  | some _ => none

/-- One loop iteration of `_load_tokens`: build an `OAuth2Token` from the
JSON record of one service.  `none` models the iteration raising
(`AttributeError` when the record is not an object, `ValueError`/`TypeError`
from the `expires_at` handling). -/
def deserializeToken : Json → Option OAuth2Token
  | .obj fields => do
      let expires_at ← parseExpires ((dictLookup "expires_at" fields).getD .null)
      let access_token ← jsonOptStrField fields "access_token"
      let refresh_token ← jsonOptStrField fields "refresh_token"
      let token_type ← jsonStrFieldD fields "token_type" "Bearer"
      let scope ← jsonOptStrField fields "scope"
      some { access_token := access_token, refresh_token := refresh_token,
             expires_at := expires_at, token_type := token_type, scope := scope }
  | _ => none

/-- State of the persisted token file. -/
inductive FileState : Type
  | absent
  | unparseable
  | content (j : Json)

/-- The `for svc, tok in data.items()` loop of `_load_tokens`.  The whole
loop runs inside a single `try`, so the first failing entry aborts the loop
but the entries inserted before it remain in the token dict. -/
def loadEntries : List (String × Json) → List (String × OAuth2Token) → List (String × OAuth2Token)
  | [], acc => acc
  | (svc, j) :: rest, acc =>
    match deserializeToken j with
    | none => acc
    | some tok => loadEntries rest (dictInsert svc tok acc)

/-- Model of `_load_tokens`, producing the in-memory token dict from the
persisted file (the dict is empty before the call; it is only called from
`__init__`).  A missing file, an unparseable file, or a parsed value that is
not a JSON object (whose `.items()` raises) all leave the dict empty. -/
def load_tokens : FileState → List (String × OAuth2Token)
  | .absent => []
  | .unparseable => []
  | .content (.obj entries) => loadEntries entries []
  | .content _ => []

/-- Python exceptions raised by the manager's operations. -/
inductive PyError : Type
  | valueError (msg : String)
  | keyError (key : String)
  | requestException
  deriving DecidableEq

/-- The spec's `StateMismatchError` kind: the `ValueError`s raised by
`_get_code_verifier` for a missing/consumed/forged state. -/
def isStateMismatch : PyError → Bool
  | .valueError "No code verifier found" => true
  | .valueError "Invalid state parameter" => true
  | _ => false

/-- The spec's `TokenExchangeError`/`RefreshError` endpoint-failure kind:
a `requests.RequestException` (transport failure, non-2xx status via
`raise_for_status`, malformed JSON body) or the `KeyError` raised on a JSON
body missing `access_token`. -/
def isTokenExchangeError : PyError → Bool
  | .requestException => true
  | .keyError _ => true
  | _ => false

/-- The parsed JSON body a token endpoint may answer with (fields absent
from the JSON object are `none`; `expires_in` abstracts
`int(token_data["expires_in"])`). -/
structure TokenResponse where
  access_token : Option String := none
  refresh_token : Option String := none
  expires_in : Option Int := none
  token_type : Option String := none
  scope : Option String := none

/-- Behaviour of one `requests.post` to the token endpoint.
`transportError` covers a raising `post` and a non-2xx `raise_for_status`;
`badJson` covers `response.json()` raising (all of these are
`requests.RequestException`s). -/
inductive TokenEndpointResult : Type
  | transportError
  | badJson
  | ok (body : TokenResponse)

/-- The mutable state of an `OAuth2Manager` instance.  `codeVerifiers` is
`none` as long as the `_code_verifiers` attribute has never been created
(the `hasattr` guard in `_store_code_verifier`/`_get_code_verifier`);
`file` is the persisted token store content. -/
structure ManagerState where
  tokens : List (String × OAuth2Token)
  configs : List (String × OAuth2Config)
  codeVerifiers : Option (List (String × String)) := none
  file : FileState

/-- Model of `OAuth2Manager.__init__`: load persisted tokens (best-effort),
start with no configs and no verifier cache. -/
def initManager (f : FileState) : ManagerState :=
  { tokens := load_tokens f, configs := [], codeVerifiers := none, file := f }

/-- Model of `add_service_config`. -/
def add_service_config (st : ManagerState) (service_name : String) (config : OAuth2Config) :
    ManagerState :=
  { st with configs := dictInsert service_name config st.configs }

/-- Key of the PKCE verifier cache: the f-string `"{service_name}:{state}"`. -/
def verifierKey (service_name state : String) : String :=
  service_name ++ ":" ++ state

/-- Verifier stored for `(service, state)`, if any (`none` when the cache
attribute does not exist or the key is absent). -/
def lookupVerifier (st : ManagerState) (service_name state : String) : Option String :=
  st.codeVerifiers.bind (dictLookup (verifierKey service_name state))

/-- Model of `revoke_token`: drop the service's token (if present) and
persist; a no-op when the service has no token. -/
def revoke_token (st : ManagerState) (service_name : String) : ManagerState :=
  match dictLookup service_name st.tokens with
  | none => st
  | some _ =>
    let tokens' := dictErase service_name st.tokens
    { st with tokens := tokens', file := .content (serializeTokens tokens') }

/-- Model of `exchange_code_for_token`.  The third component of the result
counts the `requests.post` calls made to the token endpoint (0 or 1).
The PKCE verifier is popped by `_get_code_verifier` before the post. -/
def exchange_code_for_token (st : ManagerState)
    (service_name authorization_code state : String)
    (resp : TokenEndpointResult) (now : Int) :
    Except PyError OAuth2Token × ManagerState × Nat :=
  match dictLookup service_name st.configs with
  | none =>
    (.error (.valueError ("Service " ++ service_name ++ " not configured")), st, 0)
  | some _config =>
    match st.codeVerifiers with
    | none => (.error (.valueError "No code verifier found"), st, 0)
    | some cvs =>
      match dictLookup (verifierKey service_name state) cvs with
      | none => (.error (.valueError "Invalid state parameter"), st, 0)
      | some _code_verifier =>
        let st1 : ManagerState :=
          { st with codeVerifiers := some (dictErase (verifierKey service_name state) cvs) }
        match resp with
        | .transportError => (.error .requestException, st1, 1)
        | .badJson => (.error .requestException, st1, 1)
        | .ok token_data =>
          match token_data.access_token with
          | none => (.error (.keyError "access_token"), st1, 1)
          | some a =>
            let token : OAuth2Token :=
              { access_token := some a,
                refresh_token := token_data.refresh_token,
                expires_at := token_data.expires_in.map (fun s => now + s),
                token_type := token_data.token_type.getD "Bearer",
                scope := token_data.scope }
            let tokens' := dictInsert service_name token st1.tokens
            (.ok token,
             { st1 with tokens := tokens', file := .content (serializeTokens tokens') }, 1)

/-- Model of `refresh_token` (the method).  The guard
`if not current_token.refresh_token` treats both `None` and the empty
string as missing.  On success the stored token is mutated in place:
access token and expiry replaced, refresh token replaced only when the
response carries one, then the set is persisted. -/
def refresh_token (st : ManagerState) (service_name : String)
    (resp : TokenEndpointResult) (now : Int) :
    Except PyError OAuth2Token × ManagerState × Nat :=
  match dictLookup service_name st.configs with
  | none =>
    (.error (.valueError ("Service " ++ service_name ++ " not configured")), st, 0)
  | some _config =>
    match dictLookup service_name st.tokens with
    | none =>
      (.error (.valueError ("No token available for " ++ service_name)), st, 0)
    | some current_token =>
      if current_token.refresh_token = none ∨ current_token.refresh_token = some "" then
        (.error (.valueError ("No refresh token available for " ++ service_name)), st, 0)
      else
        match resp with
        | .transportError => (.error .requestException, st, 1)
        | .badJson => (.error .requestException, st, 1)
        | .ok token_data =>
          match token_data.access_token with
          | none => (.error (.keyError "access_token"), st, 1)
          | some a =>
            let newTok : OAuth2Token :=
              { current_token with
                access_token := some a,
                expires_at := token_data.expires_in.map (fun s => now + s),
                refresh_token :=
                  match token_data.refresh_token with
                  | some r => some r
                  | none => current_token.refresh_token }
            let tokens' := dictInsert service_name newTok st.tokens
            (.ok newTok,
             { st with tokens := tokens', file := .content (serializeTokens tokens') }, 1)

/-- Model of `get_valid_token`: absent when no token is on record; when the
stored expiry is in the past, one refresh attempt whose failure (any
exception) is swallowed into an absent result; otherwise the current token
unchanged. -/
def get_valid_token (st : ManagerState) (service_name : String)
    (resp : TokenEndpointResult) (now : Int) :
    Option OAuth2Token × ManagerState × Nat :=
  match dictLookup service_name st.tokens with
  | none => (none, st, 0)
  | some token =>
    match token.expires_at with
    | some e =>
      if now ≥ e then
        match refresh_token st service_name resp now with
        | (.ok t, st', n) => (some t, st', n)
        | (.error _, st', n) => (none, st', n)
      else (some token, st, 0)
    | none => (some token, st, 0)

/-- Model of `is_authenticated`. -/
def is_authenticated (st : ManagerState) (service_name : String)
    (resp : TokenEndpointResult) (now : Int) : Bool × ManagerState × Nat :=
  match get_valid_token st service_name resp now with
  | (t, st', n) => (t.isSome, st', n)

/-- UTF-8 encoding of one character (model of `str.encode("utf-8")`,
byte values as naturals). -/
def charUtf8 (c : Char) : List Nat :=
  let n := c.toNat
  if n < 128 then [n]
  else if n < 2048 then [192 + n / 64, 128 + n % 64]
  else if n < 65536 then [224 + n / 4096, 128 + n / 64 % 64, 128 + n % 64]
  else [240 + n / 262144, 128 + n / 4096 % 64, 128 + n / 64 % 64, 128 + n % 64]

/-- Concatenated images of a list-valued function (explicit recursion so
its equations unfold definitionally). -/
def flatJoin {α β : Type} (f : α → List β) : List α → List β
  | [] => []
  | x :: xs => f x ++ flatJoin f xs

/-- UTF-8 bytes of a string. -/
def strBytes (s : String) : List Nat := flatJoin charUtf8 s.data

/-- Bytes left unencoded by `urllib.parse.quote_plus`: ASCII alphanumerics
and `_.-~`. -/
def isSafeByte (b : Nat) : Bool :=
  (48 ≤ b && b ≤ 57) || (65 ≤ b && b ≤ 90) || (97 ≤ b && b ≤ 122) ||
    b == 45 || b == 46 || b == 95 || b == 126

/-- Uppercase hexadecimal digit. -/
def hexUpper (n : Nat) : Char := "0123456789ABCDEF".data.getD n '0'

/-- Encoding of a single byte by `quote_plus`: safe bytes verbatim, space as
a plus sign, everything else percent-encoded. -/
def quoteByte (b : Nat) : List Char :=
  if isSafeByte b then [Char.ofNat b]
  else if b = 32 then ['+']
  else ['%', hexUpper (b / 16), hexUpper (b % 16)]

/-- Model of `urllib.parse.quote_plus` (character list form). -/
def quotePlusChars (s : String) : List Char := flatJoin quoteByte (strBytes s)

/-- Model of `urllib.parse.quote_plus`. -/
def quote_plus (s : String) : String := ⟨quotePlusChars s⟩

/-- One `key=value` pair of `urllib.parse.urlencode`. -/
def encodePair (kv : String × String) : List Char :=
  quotePlusChars kv.1 ++ '=' :: quotePlusChars kv.2

/-- Join pre-encoded pairs with ampersands. -/
def joinAmp : List (List Char) → List Char
  | [] => []
  | [x] => x
  | x :: xs => x ++ '&' :: joinAmp xs

/-- Model of `urllib.parse.urlencode` on an insertion-ordered dict. -/
def urlencode (ps : List (String × String)) : String :=
  ⟨joinAmp (ps.map encodePair)⟩

/-- Everything after the first occurrence of a character
(query part of a URL for the separator `?`). -/
def afterFirst (c : Char) : List Char → Option (List Char)
  | [] => none
  | x :: xs => if x = c then some xs else afterFirst c xs

/-- Split a character list at every occurrence of a separator. -/
def splitOnChar (c : Char) : List Char → List (List Char)
  | [] => [[]]
  | x :: xs =>
    let r := splitOnChar c xs
    if x = c then [] :: r
    else
      match r with
      | [] => [[x]]
      | y :: ys => (x :: y) :: ys

/-- First result of a partial function over a list (explicit recursion). -/
def firstSome {α β : Type} (f : α → Option β) : List α → Option β
  | [] => none
  | x :: xs =>
    match f x with
    | some b => some b
    | none => firstSome f xs

/-- Value of a `key=value` query chunk when its key part (the characters
before the first equals sign) is exactly the requested key. -/
def chunkValue (key chunk : List Char) : Option (List Char) :=
  if chunk.takeWhile (fun c => c != '=') = key ∧ key.length < chunk.length then
    some (chunk.drop (key.length + 1))
  else none

/-- Raw value of the first query parameter named `key` in a URL: the query
string is the part after the first question mark, split at ampersands. -/
def queryParamChars (url key : List Char) : Option (List Char) :=
  match afterFirst '?' url with
  | none => none
  | some q => firstSome (chunkValue key) (splitOnChar '&' q)

/-- Raw value of a query parameter of a URL (string form). -/
def queryParam (url key : String) : Option String :=
  (queryParamChars url.data key.data).map (fun l => ⟨l⟩)

/-- The URL-safe base64 alphabet of `base64.urlsafe_b64encode`. -/
def b64UrlAlphabet : List Char :=
  "ABCDEFGHIJKLMNOPQRSTUVWXYZabcdefghijklmnopqrstuvwxyz0123456789-_".data

/-- Character of one 6-bit group. -/
def b64Char (n : Nat) : Char := b64UrlAlphabet.getD n '_'

/-- Base64 encoding of a byte list, three bytes to four characters, with
equals-sign padding. -/
def b64Chars : List Nat → List Char
  | b0 :: b1 :: b2 :: rest =>
    b64Char (b0 / 4) ::
    b64Char (b0 % 4 * 16 + b1 / 16) ::
    b64Char (b1 % 16 * 4 + b2 / 64) ::
    b64Char (b2 % 64) :: b64Chars rest
  | [b0, b1] =>
    [b64Char (b0 / 4), b64Char (b0 % 4 * 16 + b1 / 16), b64Char (b1 % 16 * 4), '=']
  | [b0] =>
    [b64Char (b0 / 4), b64Char (b0 % 4 * 16), '=', '=']
  | [] => []

/-- Model of `base64.urlsafe_b64encode` (on byte values, result decoded to
a string). -/
def base64urlEncode (bs : List Nat) : String := ⟨b64Chars bs⟩

/-- Model of `str.rstrip("=")`. -/
def rstripEq (s : String) : String :=
  ⟨(s.data.reverse.dropWhile (fun c => c == '=')).reverse⟩

/-- Truncation to a 32-bit word. -/
def w32 (n : Nat) : Nat := n % 4294967296

/-- Right rotation of a 32-bit word. -/
def rotr32 (n x : Nat) : Nat := w32 (x >>> n ||| x <<< (32 - n))

/-- The SHA-256 round constants (FIPS 180-4), in decimal. -/
def sha256K : List Nat :=
  [1116352408, 1899447441, 3049323471, 3921009573, 961987163, 1508970993,
   2453635748, 2870763221, 3624381080, 310598401, 607225278, 1426881987,
   1925078388, 2162078206, 2614888103, 3248222580, 3835390401, 4022224774,
   264347078, 604807628, 770255983, 1249150122, 1555081692, 1996064986,
   2554220882, 2821834349, 2952996808, 3210313671, 3336571891, 3584528711,
   113926993, 338241895, 666307205, 773529912, 1294757372, 1396182291,
   1695183700, 1986661051, 2177026350, 2456956037, 2730485921, 2820302411,
   3259730800, 3345764771, 3516065817, 3600352804, 4094571909, 275423344,
   430227734, 506948616, 659060556, 883997877, 958139571, 1322822218,
   1537002063, 1747873779, 1955562222, 2024104815, 2227730452, 2361852424,
   2428436474, 2756734187, 3204031479, 3329325298]

/-- The SHA-256 working state, eight 32-bit words. -/
structure Hash8 where
  a : Nat
  b : Nat
  c : Nat
  d : Nat
  e : Nat
  f : Nat
  g : Nat
  h : Nat

/-- The SHA-256 initial hash value, in decimal. -/
def sha256H0 : Hash8 :=
  ⟨1779033703, 3144134277, 1013904242, 2773480762,
   1359893119, 2600822924, 528734635, 1541459225⟩

/-- Big-endian bytes of a 64-bit length field. -/
def be64 (n : Nat) : List Nat :=
  [n >>> 56 % 256, n >>> 48 % 256, n >>> 40 % 256, n >>> 32 % 256,
   n >>> 24 % 256, n >>> 16 % 256, n >>> 8 % 256, n % 256]

/-- Big-endian bytes of a 32-bit word. -/
def be32 (n : Nat) : List Nat :=
  [n >>> 24 % 256, n >>> 16 % 256, n >>> 8 % 256, n % 256]

/-- SHA-256 message padding: a one bit, zeros to 56 mod 64 bytes, then the
bit length as a big-endian 64-bit integer. -/
def sha256pad (msg : List Nat) : List Nat :=
  msg ++ 128 :: List.replicate ((119 - msg.length % 64) % 64) 0 ++ be64 (8 * msg.length)

/-- Split a byte list into 64-byte blocks. -/
def chunks64 (l : List Nat) : List (List Nat) :=
  if l.isEmpty then []
  else l.take 64 :: chunks64 (l.drop 64)
termination_by l.length
decreasing_by
  rename_i h
  simp only [List.length_drop]
  cases l with
  | nil => simp at h
  | cons x xs => simp only [List.length_cons]; omega

/-- Big-endian 32-bit words of a block. -/
def bytesToWords : List Nat → List Nat
  | b0 :: b1 :: b2 :: b3 :: rest =>
    (b0 <<< 24 ||| b1 <<< 16 ||| b2 <<< 8 ||| b3) :: bytesToWords rest
  | _ => []

/-- The SHA-256 message-schedule extension of the sixteen block words to
sixty-four. -/
def sha256schedule (w16 : List Nat) : List Nat :=
  (List.range 48).foldl
    (fun ws i =>
      let s0 := rotr32 7 (ws.getD (i + 1) 0) ^^^ rotr32 18 (ws.getD (i + 1) 0) ^^^
        ws.getD (i + 1) 0 >>> 3
      let s1 := rotr32 17 (ws.getD (i + 14) 0) ^^^ rotr32 19 (ws.getD (i + 14) 0) ^^^
        ws.getD (i + 14) 0 >>> 10
      ws ++ [w32 (ws.getD i 0 + s0 + ws.getD (i + 9) 0 + s1)])
    w16

/-- One SHA-256 compression round. -/
def sha256round (s : Hash8) (ki wi : Nat) : Hash8 :=
  let S1 := rotr32 6 s.e ^^^ rotr32 11 s.e ^^^ rotr32 25 s.e
  let ch := s.e &&& s.f ^^^ (s.e ^^^ 4294967295) &&& s.g
  let temp1 := w32 (s.h + S1 + ch + ki + wi)
  let S0 := rotr32 2 s.a ^^^ rotr32 13 s.a ^^^ rotr32 22 s.a
  let maj := s.a &&& s.b ^^^ s.a &&& s.c ^^^ s.b &&& s.c
  let temp2 := w32 (S0 + maj)
  ⟨w32 (temp1 + temp2), s.a, s.b, s.c, w32 (s.d + temp1), s.e, s.f, s.g⟩

/-- SHA-256 compression of one 64-byte block. -/
def sha256compress (h0 : Hash8) (block : List Nat) : Hash8 :=
  let w := sha256schedule (bytesToWords block)
  let f := (List.range 64).foldl
    (fun s i => sha256round s (sha256K.getD i 0) (w.getD i 0)) h0
  ⟨w32 (h0.a + f.a), w32 (h0.b + f.b), w32 (h0.c + f.c), w32 (h0.d + f.d),
   w32 (h0.e + f.e), w32 (h0.f + f.f), w32 (h0.g + f.g), w32 (h0.h + f.h)⟩

/-- Model of `hashlib.sha256(...).digest()`: the 32-byte SHA-256 digest of
a byte list (FIPS 180-4). -/
def sha256 (msg : List Nat) : List Nat :=
  let fin := (chunks64 (sha256pad msg)).foldl sha256compress sha256H0
  flatJoin be32 [fin.a, fin.b, fin.c, fin.d, fin.e, fin.f, fin.g, fin.h]

/-- The state `generate_authorization_url` uses: the caller's state when it
is truthy (`if not state`), else the fresh `secrets.token_urlsafe(32)`
value. -/
def genState (stateArg : Option String) (freshState : String) : String :=
  match stateArg with
  | none => freshState
  | some s => if s = "" then freshState else s

/-- Model of `generate_authorization_url`.  Randomness is explicit:
`freshState` is the `secrets.token_urlsafe(32)` value used when the caller
passes no (or a falsy) state, and `randomBytes` the `secrets.token_bytes(32)`
value from which the PKCE verifier is built.  The code challenge is the
URL-safe base64 (no padding) SHA-256 digest of the verifier's bytes. -/
def generate_authorization_url (st : ManagerState) (service_name : String)
    (stateArg : Option String) (freshState : String) (randomBytes : List Nat) :
    Except PyError (String × String) × ManagerState :=
  match dictLookup service_name st.configs with
  | none =>
    (.error (.valueError ("Service " ++ service_name ++ " not configured")), st)
  | some config =>
    let state := genState stateArg freshState
    let code_verifier := rstripEq (base64urlEncode randomBytes)
    let code_challenge := rstripEq (base64urlEncode (sha256 (strBytes code_verifier)))
    let params := [("response_type", "code"),
                   ("client_id", config.client_id),
                   ("redirect_uri", config.redirect_uri),
                   ("scope", config.scope),
                   ("state", state),
                   ("code_challenge", code_challenge),
                   ("code_challenge_method", "S256")]
    let cvs' := dictInsert (verifierKey service_name state) code_verifier
      (st.codeVerifiers.getD [])
    let st' : ManagerState := { st with codeVerifiers := some cvs' }
    let auth_url := config.authorization_url ++ "?" ++ urlencode params
    (.ok (auth_url, state), st')

/-! ### Association-list (dict) lemmas -/

theorem dictLookup_dictInsert_self {α : Type} (k : String) (v : α) (l : List (String × α)) :
    dictLookup k (dictInsert k v l) = some v := by
  induction l with
  | nil => simp [dictLookup, dictInsert]
  | cons p rest ih =>
    by_cases h : p.1 = k
    · simp [dictLookup, dictInsert, h]
    · simp [dictLookup, dictInsert, h, ih]

theorem dictLookup_dictErase_self {α : Type} (k : String) (l : List (String × α)) :
    dictLookup k (dictErase k l) = none := by
  induction l with
  | nil => simp [dictLookup, dictErase]
  | cons p rest ih =>
    by_cases h : p.1 = k
    · simpa [dictErase, h] using ih
    · simpa [dictErase, dictLookup, h] using ih

theorem dictErase_dictErase {α : Type} (k : String) (l : List (String × α)) :
    dictErase k (dictErase k l) = dictErase k l := by
  simp [dictErase, List.filter_filter]

theorem dictInsert_of_lookup_none {α : Type} (k : String) (v : α) (l : List (String × α))
    (h : dictLookup k l = none) : dictInsert k v l = l ++ [(k, v)] := by
  induction l with
  | nil => simp [dictInsert]
  | cons p rest ih =>
    by_cases hk : p.1 = k
    · simp [dictLookup, hk] at h
    · simp only [dictLookup, hk, if_neg] at h
      simp [dictInsert, hk, ih h]

theorem dictLookup_append_left_none {α : Type} (k : String) (l₁ l₂ : List (String × α))
    (h : dictLookup k l₁ = none) : dictLookup k (l₁ ++ l₂) = dictLookup k l₂ := by
  induction l₁ with
  | nil => simp
  | cons p rest ih =>
    by_cases hk : p.1 = k
    · simp [dictLookup, hk] at h
    · simp only [dictLookup, hk, if_neg] at h ⊢
      simp [List.cons_append, dictLookup, hk, ih h]

/-! ### Instant rendering round trip -/

theorem digitChar_lt_ten : ∀ d, d < 10 → charDigit (digitChar d) = d := by decide

theorem isDigitChar_digitChar : ∀ d, d < 10 → isDigitChar (digitChar d) = true := by decide

theorem natChars_ne_nil (n : Nat) : natChars n ≠ [] := by
  unfold natChars
  split
  · simp
  · rename_i h
    simp [Nat.digits_ne_nil_iff_ne_zero, h]

theorem natChars_all_digits (n : Nat) : ∀ c ∈ natChars n, isDigitChar c = true := by
  intro c hc
  unfold natChars at hc
  split at hc
  · simp at hc
    simp [hc]
    decide
  · simp only [List.mem_reverse, List.mem_map] at hc
    obtain ⟨d, hd, rfl⟩ := hc
    exact isDigitChar_digitChar d (Nat.digits_lt_base (by norm_num) hd)

theorem parseNatChars_natChars (n : Nat) : parseNatChars (natChars n) = some n := by
  by_cases h0 : n = 0
  · subst h0; decide
  · have hne := natChars_ne_nil n
    have hall : (natChars n).all isDigitChar = true := by
      rw [List.all_eq_true]
      exact natChars_all_digits n
    unfold parseNatChars
    rw [if_pos ⟨hne, hall⟩]
    unfold natChars
    rw [if_neg h0]
    congr 1
    rw [List.map_reverse, List.reverse_reverse, List.map_map]
    have hmap : ∀ l : List Nat, (∀ d ∈ l, d < 10) →
        l.map (charDigit ∘ digitChar) = l := by
      intro l hl
      induction l with
      | nil => rfl
      | cons d rest ih =>
        simp only [List.map_cons, Function.comp_apply]
        rw [digitChar_lt_ten d (hl d (by simp)),
          ih (fun x hx => hl x (by simp [hx]))]
    rw [hmap _ (fun d hd => Nat.digits_lt_base (by norm_num) hd), Nat.ofDigits_digits]

theorem isoformat_ne_empty (t : Int) : isoformat t ≠ "" := by
  cases t with
  | ofNat n =>
    simp only [isoformat]
    intro h
    exact natChars_ne_nil n (congrArg String.data h)
  | negSucc m =>
    simp only [isoformat]
    intro h
    exact List.cons_ne_nil _ _ (congrArg String.data h)

theorem fromisoformat_isoformat (t : Int) : fromisoformat (isoformat t) = some t := by
  cases t with
  | ofNat n =>
    obtain ⟨c, cs, hc⟩ := List.exists_cons_of_ne_nil (natChars_ne_nil n)
    have hdigit : isDigitChar c = true := natChars_all_digits n c (by rw [hc]; simp)
    have hcne : ¬ c = '-' := by
      intro h; rw [h] at hdigit; simp [isDigitChar] at hdigit
    have hdata : (isoformat (Int.ofNat n)).data = c :: cs := by
      rw [show (isoformat (Int.ofNat n)).data = natChars n from rfl, hc]
    simp only [fromisoformat, hdata]
    rw [if_neg hcne, ← hc, parseNatChars_natChars]
    rfl
  | negSucc m =>
    have hdata : (isoformat (Int.negSucc m)).data = '-' :: natChars (m + 1) := rfl
    simp only [fromisoformat, hdata, if_pos, parseNatChars_natChars]
    simp [Int.negSucc_eq]

/-! ### Persistence round trip -/

theorem deserializeToken_serializeToken (t : OAuth2Token) :
    deserializeToken (serializeToken t) = some t := by
  have hexp : parseExpires
      ((dictLookup "expires_at" [("access_token", optStrJson t.access_token),
        ("refresh_token", optStrJson t.refresh_token),
        ("expires_at", match t.expires_at with
          | some u => Json.str (isoformat u)
          | none => Json.null),
        ("token_type", Json.str t.token_type),
        ("scope", optStrJson t.scope)]).getD .null) = some t.expires_at := by
    simp only [dictLookup]
    norm_num
    cases t.expires_at with
    | none => simp [parseExpires, Json.truthy]
    | some u =>
      simp only [parseExpires, Json.truthy]
      rw [if_pos (by simp [isoformat_ne_empty u])]
      simp [fromisoformat_isoformat]
  cases t with
  | mk a r e ty sc =>
    simp only [serializeToken] at hexp ⊢
    simp only [deserializeToken, hexp, Option.bind_eq_bind, Option.some_bind]
    cases a <;> cases r <;> cases sc <;>
      simp [jsonOptStrField, jsonStrFieldD, dictLookup, optStrJson]

theorem loadEntries_serialized (ts : List (String × OAuth2Token)) :
    ∀ acc : List (String × OAuth2Token), (ts.map Prod.fst).Nodup →
      (∀ p ∈ ts, dictLookup p.1 acc = none) →
      loadEntries (ts.map (fun p => (p.1, serializeToken p.2))) acc = acc ++ ts := by
  induction ts with
  | nil => intro acc _ _; simp [loadEntries]
  | cons p rest ih =>
    intro acc hnd hdisj
    obtain ⟨s, t⟩ := p
    simp only [List.map_cons, loadEntries, deserializeToken_serializeToken]
    rw [dictInsert_of_lookup_none s t acc (hdisj (s, t) (by simp))]
    simp only [List.map_cons, List.nodup_cons] at hnd
    rw [ih (acc ++ [(s, t)]) hnd.2 ?_]
    · simp
    · intro q hq
      rw [dictLookup_append_left_none _ _ _ (hdisj q (by simp [hq]))]
      have hqs : ¬ s = q.1 := by
        intro h
        exact hnd.1 (h ▸ List.mem_map_of_mem Prod.fst hq)
      simp [dictLookup, hqs]

theorem loadEntries_append_bad (svc : String) (bad : Json) (rest : List (String × Json))
    (hbad : deserializeToken bad = none) :
    ∀ (pre : List (String × Json)) (acc : List (String × OAuth2Token)),
      (∀ p ∈ pre, (deserializeToken p.2).isSome) →
      loadEntries (pre ++ (svc, bad) :: rest) acc = loadEntries pre acc := by
  intro pre
  induction pre with
  | nil => intro acc _; simp [loadEntries, hbad]
  | cons p pr ih =>
    intro acc hpre
    obtain ⟨s, j⟩ := p
    obtain ⟨t, ht⟩ := Option.isSome_iff_exists.mp (hpre (s, j) (by simp))
    simp only [List.cons_append, loadEntries, ht]
    exact ih _ (fun q hq => hpre q (by simp [hq]))

/-! ### Claim theorems -/

/-- C7: saving a token set to the persisted store and loading it back
(simulating a restart) reproduces the token set field-for-field.  The
hypothesis that the service names are distinct is the key invariant of a
Python dict. -/
theorem save_load_round_trip (ts : List (String × OAuth2Token))
    (hnd : (ts.map Prod.fst).Nodup) :
    load_tokens (.content (serializeTokens ts)) = ts := by
  simp only [serializeTokens, load_tokens]
  rw [loadEntries_serialized ts [] hnd (by intro p _; simp [dictLookup])]
  simp

/-- Concrete token used by witnesses. -/
def demoToken1 : OAuth2Token :=
  OAuth2Token.mk (some "tok1") (some "ref1") (some 1700000000) "Bearer" (some "api")

/-- Concrete token without refresh token or expiry, used by witnesses. -/
def demoToken2 : OAuth2Token :=
  OAuth2Token.mk (some "tok2") none none "bot" none

/-- Witness for C7 at a concrete two-service token set. -/
theorem save_load_round_trip_witness :
    ([("salesforce", demoToken1), ("slack", demoToken2)].map Prod.fst).Nodup ∧
    load_tokens (.content (serializeTokens
        [("salesforce", demoToken1), ("slack", demoToken2)])) =
      [("salesforce", demoToken1), ("slack", demoToken2)] :=
  ⟨by decide, save_load_round_trip _ (by decide)⟩

/-- A persisted file whose second entry is not a JSON object: reading it
raises inside the load loop after the first entry was already stored. -/
def c6file : Json :=
  .obj [("svc1", .obj [("access_token", .str "tok1")]), ("svc2", .str "oops")]

/-- Counterexample to C6: the second entry of `c6file` cannot be
deserialized, yet after loading the in-memory token set is not empty — the
first entry survives. -/
theorem load_tokens_nonempty_counterexample :
    deserializeToken (Json.str "oops") = none ∧
    load_tokens (.content c6file) =
      [("svc1", OAuth2Token.mk (some "tok1") none none "Bearer" none)] ∧
    load_tokens (.content c6file) ≠ [] := by
  refine ⟨rfl, by decide, by decide⟩

/-- C6 as amended: startup always succeeds; an unparseable file yields an
empty token set, while a file with a failing entry yields exactly the
entries before the first failing one (that entry and the rest are
dropped). -/
theorem load_tokens_failing_entry (pre : List (String × Json)) (svc : String) (bad : Json)
    (rest : List (String × Json))
    (hpre : ∀ p ∈ pre, (deserializeToken p.2).isSome)
    (hbad : deserializeToken bad = none) :
    load_tokens .unparseable = [] ∧
    load_tokens (.content (.obj (pre ++ (svc, bad) :: rest))) =
      load_tokens (.content (.obj pre)) := by
  refine ⟨rfl, ?_⟩
  simp only [load_tokens]
  exact loadEntries_append_bad svc bad rest hbad pre [] hpre

/-- Witness for the amended C6 at a concrete file. -/
theorem load_tokens_failing_entry_witness :
    (∀ p ∈ [(("svc1" : String), Json.obj [("access_token", Json.str "tok1")])],
      (deserializeToken p.2).isSome) ∧
    deserializeToken (Json.str "oops") = none ∧
    load_tokens (.content (.obj ([("svc1", Json.obj [("access_token", Json.str "tok1")])] ++
        ("svc2", Json.str "oops") :: [("svc3", Json.null)]))) =
      load_tokens (.content (.obj [("svc1", Json.obj [("access_token", Json.str "tok1")])])) :=
  ⟨by decide, rfl,
    (load_tokens_failing_entry [("svc1", Json.obj [("access_token", Json.str "tok1")])]
      "svc2" (Json.str "oops") [("svc3", Json.null)] (by decide) rfl).2⟩

/-- C9: `revoke_token` is idempotent and total — it never errors, a second
revocation is a no-op, after revocation the service has no entry, and
revoking a service with no stored token leaves the state unchanged. -/
theorem revoke_token_idempotent (st : ManagerState) (svc : String) :
    revoke_token (revoke_token st svc) svc = revoke_token st svc ∧
    dictLookup svc (revoke_token st svc).tokens = none ∧
    (dictLookup svc st.tokens = none → revoke_token st svc = st) := by
  have herase := dictLookup_dictErase_self svc st.tokens
  cases h : dictLookup svc st.tokens with
  | none => simp [revoke_token, h]
  | some t =>
    refine ⟨?_, ?_, ?_⟩
    · simp only [revoke_token, h]
      simp [revoke_token, herase]
    · simp only [revoke_token, h]
      simpa using herase
    · intro hc; simp [h] at hc

/-- Witness for C9 at a concrete state with no stored token. -/
theorem revoke_token_idempotent_witness :
    dictLookup "zendesk" (ManagerState.mk [] [] none .absent).tokens = none ∧
    revoke_token (ManagerState.mk [] [] none .absent) "zendesk" =
      ManagerState.mk [] [] none .absent :=
  ⟨rfl, (revoke_token_idempotent (ManagerState.mk [] [] none .absent) "zendesk").2.2 rfl⟩

/-! ### Exchange and refresh helper lemmas -/

theorem exchange_no_verifier (st : ManagerState) (svc code state : String)
    (resp : TokenEndpointResult) (now : Int) (cfg : OAuth2Config)
    (hcfg : dictLookup svc st.configs = some cfg)
    (hno : lookupVerifier st svc state = none) :
    ∃ e, exchange_code_for_token st svc code state resp now = (.error e, st, 0) ∧
      isStateMismatch e = true := by
  cases hcv : st.codeVerifiers with
  | none =>
    exact ⟨.valueError "No code verifier found",
      by simp [exchange_code_for_token, hcfg, hcv], rfl⟩
  | some cvs =>
    have hlk : dictLookup (verifierKey svc state) cvs = none := by
      simpa [lookupVerifier, hcv] using hno
    exact ⟨.valueError "Invalid state parameter",
      by simp [exchange_code_for_token, hcfg, hcv, hlk], rfl⟩

theorem exchange_pop_shape (st : ManagerState) (svc code state : String)
    (resp : TokenEndpointResult) (now : Int) (cfg : OAuth2Config)
    (cvs : List (String × String)) (v : String)
    (hcfg : dictLookup svc st.configs = some cfg)
    (hcv : st.codeVerifiers = some cvs)
    (hv : dictLookup (verifierKey svc state) cvs = some v) :
    ∃ r st1, exchange_code_for_token st svc code state resp now = (r, st1, 1) ∧
      st1.configs = st.configs ∧
      st1.codeVerifiers = some (dictErase (verifierKey svc state) cvs) ∧
      (∀ e, r = .error e → st1.tokens = st.tokens ∧ st1.file = st.file ∧
        isTokenExchangeError e = true) ∧
      ((resp = .transportError ∨ resp = .badJson ∨
        (∃ body, resp = .ok body ∧ body.access_token = none)) → ∃ e, r = .error e) := by
  cases resp with
  | transportError =>
    refine ⟨.error .requestException,
      { st with codeVerifiers := some (dictErase (verifierKey svc state) cvs) },
      ?_, rfl, rfl, ?_, fun _ => ⟨.requestException, rfl⟩⟩
    · simp [exchange_code_for_token, hcfg, hcv, hv]
    · intro e he
      injection he with he'
      exact ⟨rfl, rfl, he' ▸ rfl⟩
  | badJson =>
    refine ⟨.error .requestException,
      { st with codeVerifiers := some (dictErase (verifierKey svc state) cvs) },
      ?_, rfl, rfl, ?_, fun _ => ⟨.requestException, rfl⟩⟩
    · simp [exchange_code_for_token, hcfg, hcv, hv]
    · intro e he
      injection he with he'
      exact ⟨rfl, rfl, he' ▸ rfl⟩
  | ok body =>
    cases hb : body.access_token with
    | none =>
      refine ⟨.error (.keyError "access_token"),
        { st with codeVerifiers := some (dictErase (verifierKey svc state) cvs) },
        ?_, rfl, rfl, ?_, fun _ => ⟨.keyError "access_token", rfl⟩⟩
      · simp [exchange_code_for_token, hcfg, hcv, hv, hb]
      · intro e he
        injection he with he'
        exact ⟨rfl, rfl, he' ▸ rfl⟩
    | some a =>
      refine ⟨.ok (OAuth2Token.mk (some a) body.refresh_token
          (body.expires_in.map (fun s => now + s)) (body.token_type.getD "Bearer") body.scope),
        { st with codeVerifiers := some (dictErase (verifierKey svc state) cvs),
                  tokens := dictInsert svc (OAuth2Token.mk (some a) body.refresh_token
                    (body.expires_in.map (fun s => now + s)) (body.token_type.getD "Bearer")
                    body.scope) st.tokens,
                  file := .content (serializeTokens (dictInsert svc
                    (OAuth2Token.mk (some a) body.refresh_token
                      (body.expires_in.map (fun s => now + s)) (body.token_type.getD "Bearer")
                      body.scope) st.tokens)) },
        ?_, rfl, rfl, ?_, ?_⟩
      · simp [exchange_code_for_token, hcfg, hcv, hv, hb]
      · intro e he
        exact absurd he (by simp)
      · rintro (h | h | ⟨b, hb2, hbn⟩)
        · exact absurd h (by simp)
        · exact absurd h (by simp)
        · injection hb2 with hb3
          rw [← hb3] at hbn
          rw [hbn] at hb
          exact absurd hb (by simp)

theorem refresh_token_error_state (st : ManagerState) (svc : String)
    (resp : TokenEndpointResult) (now : Int) :
    ∀ e st' n, refresh_token st svc resp now = (.error e, st', n) → st' = st := by
  intro e st' n h
  unfold refresh_token at h
  repeat' split at h
  all_goals simp_all

/-- Concrete service configuration used by witnesses. -/
def demoConfig : OAuth2Config :=
  OAuth2Config.mk "cid" "secret" "https://auth.example.com/authorize"
    "https://auth.example.com/token" "https://app.example.com/cb" "api" "salesforce"

/-- Witness state: one registered config, nothing else. -/
def demoConfigState : ManagerState :=
  ManagerState.mk [] [("salesforce", demoConfig)] none .absent

/-- Witness state: one registered config and one cached PKCE verifier. -/
def demoVerifierState : ManagerState :=
  ManagerState.mk [] [("salesforce", demoConfig)] (some [("salesforce:xyz", "ver")]) .absent

/-- Witness state: one stored token with a refresh token. -/
def demoTokenState : ManagerState :=
  ManagerState.mk [("salesforce", demoToken1)] [("salesforce", demoConfig)] none .absent

/-- Witness state: one stored token without an expiry. -/
def demoNoExpiryState : ManagerState :=
  ManagerState.mk [("salesforce", demoToken2)] [] none .absent

/-- Witness token-endpoint body: a fresh access token, no refresh token. -/
def demoBody : TokenResponse :=
  TokenResponse.mk (some "tok2") none (some 3600) none none

/-- C2: a PKCE verifier entry is consumed exactly once.  For a configured
service, an exchange with a `(service, state)` pair that has no cached
verifier fails as a state mismatch with the state unchanged, and whatever
one exchange did, a second exchange with the same pair fails as a state
mismatch (so at most one of the two can succeed). -/
theorem exchange_state_single_use (st : ManagerState) (svc state : String)
    (cfg : OAuth2Config) (hcfg : dictLookup svc st.configs = some cfg) :
    (lookupVerifier st svc state = none →
      ∀ code resp now, ∃ e,
        exchange_code_for_token st svc code state resp now = (.error e, st, 0) ∧
        isStateMismatch e = true) ∧
    (∀ code resp now r1 st1 n1,
      exchange_code_for_token st svc code state resp now = (r1, st1, n1) →
      ∀ code' resp' now', ∃ e,
        exchange_code_for_token st1 svc code' state resp' now' = (.error e, st1, 0) ∧
        isStateMismatch e = true) := by
  constructor
  · intro hno code resp now
    exact exchange_no_verifier st svc code state resp now cfg hcfg hno
  · intro code resp now r1 st1 n1 h1 code' resp' now'
    cases hcv : st.codeVerifiers with
    | none =>
      have hno : lookupVerifier st svc state = none := by simp [lookupVerifier, hcv]
      obtain ⟨e, he, _⟩ := exchange_no_verifier st svc code state resp now cfg hcfg hno
      rw [he] at h1
      have hst : st1 = st := congrArg (fun p => p.2.1) h1.symm
      subst hst
      exact exchange_no_verifier st1 svc code' state resp' now' cfg hcfg hno
    | some cvs =>
      cases hv : dictLookup (verifierKey svc state) cvs with
      | none =>
        have hno : lookupVerifier st svc state = none := by
          simp [lookupVerifier, hcv, hv]
        obtain ⟨e, he, _⟩ := exchange_no_verifier st svc code state resp now cfg hcfg hno
        rw [he] at h1
        have hst : st1 = st := congrArg (fun p => p.2.1) h1.symm
        subst hst
        exact exchange_no_verifier st1 svc code' state resp' now' cfg hcfg hno
      | some v =>
        obtain ⟨r, st2, hx, hcfgs, hcvs, _, _⟩ :=
          exchange_pop_shape st svc code state resp now cfg cvs v hcfg hcv hv
        rw [hx] at h1
        have hst : st1 = st2 := congrArg (fun p => p.2.1) h1.symm
        subst hst
        have hcfg1 : dictLookup svc st1.configs = some cfg := by rw [hcfgs]; exact hcfg
        have hno1 : lookupVerifier st1 svc state = none := by
          simp [lookupVerifier, hcvs, dictLookup_dictErase_self]
        exact exchange_no_verifier st1 svc code' state resp' now' cfg hcfg1 hno1

/-- Witness for C2 at a concrete configured service with an empty verifier
cache. -/
theorem exchange_state_single_use_witness :
    ∃ e, exchange_code_for_token demoConfigState "salesforce" "abc123" "xyz"
        .transportError 0 = (.error e, demoConfigState, 0) ∧
      isStateMismatch e = true :=
  (exchange_state_single_use demoConfigState "salesforce" "xyz" demoConfig rfl).1
    rfl "abc123" .transportError 0

/-- C3: `get_valid_token` returns absent when no token is on record; on a
token whose expiry has passed it performs exactly the one refresh attempt,
returning the refreshed token on success, and absent on failure with the
state (hence the stale token) unchanged; a token that has not expired is
returned as is without a refresh. -/
theorem get_valid_token_behaviour (st : ManagerState) (svc : String)
    (resp : TokenEndpointResult) (now : Int) :
    (dictLookup svc st.tokens = none → get_valid_token st svc resp now = (none, st, 0)) ∧
    (∀ tok e, dictLookup svc st.tokens = some tok → tok.expires_at = some e → e ≤ now →
      (∀ t st' n, refresh_token st svc resp now = (.ok t, st', n) →
        get_valid_token st svc resp now = (some t, st', n)) ∧
      (∀ err st' n, refresh_token st svc resp now = (.error err, st', n) →
        st' = st ∧ get_valid_token st svc resp now = (none, st, n))) ∧
    (∀ tok, dictLookup svc st.tokens = some tok →
      tok.expires_at = none ∨ (∃ e, tok.expires_at = some e ∧ now < e) →
      get_valid_token st svc resp now = (some tok, st, 0)) := by
  refine ⟨?_, ?_, ?_⟩
  · intro h
    simp [get_valid_token, h]
  · intro tok e htok hexp hle
    constructor
    · intro t st' n hr
      simp [get_valid_token, htok, hexp, ge_iff_le, hle, hr]
    · intro err st' n hr
      have hst := refresh_token_error_state st svc resp now err st' n hr
      subst hst
      exact ⟨rfl, by simp [get_valid_token, htok, hexp, ge_iff_le, hle, hr]⟩
  · intro tok htok hd
    rcases hd with h | ⟨e, he, hlt⟩
    · simp [get_valid_token, htok, h]
    · simp [get_valid_token, htok, he, show ¬ now ≥ e from by omega]

/-- Witness for C3 at a concrete state with no stored token. -/
theorem get_valid_token_behaviour_witness :
    get_valid_token demoConfigState "salesforce" .transportError 0 =
      (none, demoConfigState, 0) :=
  (get_valid_token_behaviour demoConfigState "salesforce" .transportError 0).1 rfl

/-- C4: when the token endpoint answers the code exchange with a transport
failure, a non-success status, or a malformed body (unparseable or missing
`access_token`), the exchange fails with the token-exchange error kind and
the token store and persisted file are unchanged. -/
theorem exchange_failure_atomic (st : ManagerState) (svc code state : String)
    (resp : TokenEndpointResult) (now : Int) (cfg : OAuth2Config)
    (cvs : List (String × String)) (v : String)
    (hcfg : dictLookup svc st.configs = some cfg)
    (hcv : st.codeVerifiers = some cvs)
    (hv : dictLookup (verifierKey svc state) cvs = some v)
    (hfail : resp = .transportError ∨ resp = .badJson ∨
      (∃ body, resp = .ok body ∧ body.access_token = none)) :
    ∃ e st1, exchange_code_for_token st svc code state resp now = (.error e, st1, 1) ∧
      isTokenExchangeError e = true ∧ st1.tokens = st.tokens ∧ st1.file = st.file := by
  obtain ⟨r, st1, hx, _, _, herr, hno⟩ :=
    exchange_pop_shape st svc code state resp now cfg cvs v hcfg hcv hv
  obtain ⟨e, rfl⟩ := hno hfail
  obtain ⟨ht, hf, hm⟩ := herr e rfl
  exact ⟨e, st1, hx, hm, ht, hf⟩

/-- Witness for C4 at a concrete state with a cached verifier and a failing
endpoint. -/
theorem exchange_failure_atomic_witness :
    ∃ e st1, exchange_code_for_token demoVerifierState "salesforce" "abc123" "xyz"
        .badJson 0 = (.error e, st1, 1) ∧
      isTokenExchangeError e = true ∧ st1.tokens = demoVerifierState.tokens ∧
      st1.file = demoVerifierState.file :=
  exchange_failure_atomic demoVerifierState "salesforce" "abc123" "xyz" .badJson 0
    demoConfig [("salesforce:xyz", "ver")] "ver" rfl rfl rfl (.inr (.inl rfl))

/-- C5: a successful refresh replaces the stored token's access token and
expiry in place, keeps the original refresh token unless the response
carries a new one, leaves the other fields and the rest of the state
untouched, and persists the updated set. -/
theorem refresh_success_in_place (st : ManagerState) (svc : String) (cfg : OAuth2Config)
    (tok : OAuth2Token) (r : String) (body : TokenResponse) (now : Int) (a : String)
    (hcfg : dictLookup svc st.configs = some cfg)
    (htok : dictLookup svc st.tokens = some tok)
    (href : tok.refresh_token = some r) (hr : r ≠ "")
    (hat : body.access_token = some a) :
    ∃ t st', refresh_token st svc (.ok body) now = (.ok t, st', 1) ∧
      t.access_token = some a ∧
      t.expires_at = body.expires_in.map (fun s => now + s) ∧
      (∀ r', body.refresh_token = some r' → t.refresh_token = some r') ∧
      (body.refresh_token = none → t.refresh_token = tok.refresh_token) ∧
      t.token_type = tok.token_type ∧
      t.scope = tok.scope ∧
      st'.tokens = dictInsert svc t st.tokens ∧
      st'.configs = st.configs ∧
      st'.codeVerifiers = st.codeVerifiers ∧
      st'.file = .content (serializeTokens (dictInsert svc t st.tokens)) := by
  have hcond : ¬ (tok.refresh_token = none ∨ tok.refresh_token = some "") := by
    simp [href, hr]
  cases hbr : body.refresh_token with
  | none =>
    refine ⟨OAuth2Token.mk (some a) tok.refresh_token
        (body.expires_in.map (fun s => now + s)) tok.token_type tok.scope,
      { st with
        tokens := dictInsert svc (OAuth2Token.mk (some a) tok.refresh_token
          (body.expires_in.map (fun s => now + s)) tok.token_type tok.scope) st.tokens,
        file := .content (serializeTokens (dictInsert svc
          (OAuth2Token.mk (some a) tok.refresh_token
            (body.expires_in.map (fun s => now + s)) tok.token_type tok.scope) st.tokens)) },
      ?_, rfl, rfl, ?_, fun _ => rfl, rfl, rfl, rfl, rfl, rfl, rfl⟩
    · simp [refresh_token, hcfg, htok, hcond, hat, hbr]
    · intro r' h
      exact absurd h (by simp [hbr])
  | some r' =>
    refine ⟨OAuth2Token.mk (some a) (some r')
        (body.expires_in.map (fun s => now + s)) tok.token_type tok.scope,
      { st with
        tokens := dictInsert svc (OAuth2Token.mk (some a) (some r')
          (body.expires_in.map (fun s => now + s)) tok.token_type tok.scope) st.tokens,
        file := .content (serializeTokens (dictInsert svc
          (OAuth2Token.mk (some a) (some r')
            (body.expires_in.map (fun s => now + s)) tok.token_type tok.scope) st.tokens)) },
      ?_, rfl, rfl, ?_, ?_, rfl, rfl, rfl, rfl, rfl, rfl⟩
    · simp [refresh_token, hcfg, htok, hcond, hat, hbr]
    · intro r'' h
      injection h with h'
      rw [h']
    · intro h
      exact absurd h (by simp)

/-- Witness for C5: refreshing a concrete stored token against a response
that carries no new refresh token. -/
theorem refresh_success_in_place_witness :
    ∃ t st', refresh_token demoTokenState "salesforce" (.ok demoBody) 0 = (.ok t, st', 1) ∧
      t.access_token = some "tok2" ∧
      t.expires_at = demoBody.expires_in.map (fun s => 0 + s) ∧
      (∀ r', demoBody.refresh_token = some r' → t.refresh_token = some r') ∧
      (demoBody.refresh_token = none → t.refresh_token = demoToken1.refresh_token) ∧
      t.token_type = demoToken1.token_type ∧
      t.scope = demoToken1.scope ∧
      st'.tokens = dictInsert "salesforce" t demoTokenState.tokens ∧
      st'.configs = demoTokenState.configs ∧
      st'.codeVerifiers = demoTokenState.codeVerifiers ∧
      st'.file = .content (serializeTokens (dictInsert "salesforce" t demoTokenState.tokens)) :=
  refresh_success_in_place demoTokenState "salesforce" demoConfig demoToken1 "ref1"
    demoBody 0 "tok2" rfl rfl rfl (by decide) rfl

/-- C8: a token without an expiry timestamp is treated as never-expiring
and returned without any refresh attempt, and a token whose expiry has
passed is only ever returned as valid when it is the result of the refresh
attempt. -/
theorem token_expiry_invariant (st : ManagerState) (svc : String)
    (resp : TokenEndpointResult) (now : Int) :
    (∀ tok, dictLookup svc st.tokens = some tok → tok.expires_at = none →
      get_valid_token st svc resp now = (some tok, st, 0)) ∧
    (∀ tok e t st' n, dictLookup svc st.tokens = some tok → tok.expires_at = some e →
      e ≤ now → get_valid_token st svc resp now = (some t, st', n) →
      refresh_token st svc resp now = (.ok t, st', n)) := by
  constructor
  · intro tok htok hexp
    simp [get_valid_token, htok, hexp]
  · intro tok e t st' n htok hexp hle hgvt
    simp only [get_valid_token, htok, hexp, ge_iff_le, hle, if_true] at hgvt
    cases hrr : refresh_token st svc resp now with
    | mk r rest =>
      obtain ⟨st2, n2⟩ := rest
      cases r with
      | ok t2 =>
        rw [hrr] at hgvt
        simp only [Prod.mk.injEq, Option.some.injEq] at hgvt
        obtain ⟨h1, h2, h3⟩ := hgvt
        rw [h1, h2, h3]
      | error err =>
        rw [hrr] at hgvt
        simp at hgvt

/-- Witness for C8 at a concrete never-expiring token. -/
theorem token_expiry_invariant_witness :
    get_valid_token demoNoExpiryState "salesforce" .transportError 99 =
      (some demoToken2, demoNoExpiryState, 0) :=
  (token_expiry_invariant demoNoExpiryState "salesforce" .transportError 99).1
    demoToken2 rfl rfl

/-- C10: the verifier is consumed before the endpoint is contacted — a
failing exchange (transport error or non-success status or unparseable
body) stores no token but removes the verifier entry, and a retry with the
same state fails as a state mismatch after zero posts to the endpoint. -/
theorem exchange_consumes_verifier_first (st : ManagerState) (svc code state : String)
    (resp : TokenEndpointResult) (now : Int) (cfg : OAuth2Config)
    (cvs : List (String × String)) (v : String)
    (hcfg : dictLookup svc st.configs = some cfg)
    (hcv : st.codeVerifiers = some cvs)
    (hv : dictLookup (verifierKey svc state) cvs = some v)
    (hfail : resp = .transportError ∨ resp = .badJson) :
    ∃ e st1, exchange_code_for_token st svc code state resp now = (.error e, st1, 1) ∧
      st1.tokens = st.tokens ∧
      lookupVerifier st1 svc state = none ∧
      (∀ code' resp' now', ∃ e',
        exchange_code_for_token st1 svc code' state resp' now' = (.error e', st1, 0) ∧
        isStateMismatch e' = true) := by
  obtain ⟨r, st1, hx, hcfgs, hcvs, herr, hno⟩ :=
    exchange_pop_shape st svc code state resp now cfg cvs v hcfg hcv hv
  obtain ⟨e, rfl⟩ := hno (by rcases hfail with h | h; exact .inl h; exact .inr (.inl h))
  obtain ⟨ht, _, _⟩ := herr e rfl
  have hnov : lookupVerifier st1 svc state = none := by
    simp [lookupVerifier, hcvs, dictLookup_dictErase_self]
  refine ⟨e, st1, hx, ht, hnov, ?_⟩
  intro code' resp' now'
  exact exchange_no_verifier st1 svc code' state resp' now' cfg
    (by rw [hcfgs]; exact hcfg) hnov

/-! ### URL and encoding lemmas for C1 -/

theorem mem_flatJoin {α β : Type} (f : α → List β) (l : List α) (c : β) :
    c ∈ flatJoin f l ↔ ∃ a ∈ l, c ∈ f a := by
  induction l with
  | nil => simp [flatJoin]
  | cons x xs ih => simp [flatJoin, ih]

theorem getD_mem_or_default {α : Type} (l : List α) (n : Nat) (d : α) :
    l.getD n d ∈ l ∨ l.getD n d = d := by
  induction l generalizing n with
  | nil => right; simp
  | cons x xs ih =>
    cases n with
    | zero =>
      left
      rw [List.getD_cons_zero]
      exact List.mem_cons_self x xs
    | succ m =>
      rcases ih m with h | h
      · left
        rw [List.getD_cons_succ]
        exact List.mem_cons_of_mem x h
      · right
        rw [List.getD_cons_succ]
        exact h

theorem toNat_ofNat_small (b : Nat) (h : b < 55296) : (Char.ofNat b).toNat = b := by
  simp [Char.ofNat, Nat.isValidChar, h, Char.ofNatAux, Char.toNat, UInt32.toNat]

theorem isSafeByte_bounds (b : Nat) (h : isSafeByte b = true) :
    b < 128 ∧ b ≠ 63 ∧ b ≠ 38 ∧ b ≠ 61 := by
  simp [isSafeByte] at h
  omega

theorem hexUpper_ok (n : Nat) : hexUpper n ≠ '?' ∧ hexUpper n ≠ '&' ∧ hexUpper n ≠ '=' := by
  unfold hexUpper
  rcases getD_mem_or_default "0123456789ABCDEF".data n '0' with h | h
  · exact (by decide :
      ∀ x ∈ "0123456789ABCDEF".data, x ≠ '?' ∧ x ≠ '&' ∧ x ≠ '=') _ h
  · rw [h]
    exact ⟨by decide, by decide, by decide⟩

theorem quoteByte_ok (b : Nat) : ∀ c ∈ quoteByte b, c ≠ '?' ∧ c ≠ '&' ∧ c ≠ '=' := by
  intro c hc
  unfold quoteByte at hc
  by_cases hs : isSafeByte b = true
  · rw [if_pos hs] at hc
    simp only [List.mem_singleton] at hc
    subst hc
    obtain ⟨hlt, h63, h38, h61⟩ := isSafeByte_bounds b hs
    have hto : (Char.ofNat b).toNat = b := toNat_ofNat_small b (by omega)
    refine ⟨?_, ?_, ?_⟩
    · intro h; rw [h] at hto; exact h63 hto.symm
    · intro h; rw [h] at hto; exact h38 hto.symm
    · intro h; rw [h] at hto; exact h61 hto.symm
  · rw [if_neg hs] at hc
    by_cases h32 : b = 32
    · rw [if_pos h32] at hc
      simp only [List.mem_singleton] at hc
      subst hc
      exact ⟨by decide, by decide, by decide⟩
    · rw [if_neg h32] at hc
      simp only [List.mem_cons, List.not_mem_nil, or_false] at hc
      rcases hc with rfl | rfl | rfl
      · exact ⟨by decide, by decide, by decide⟩
      · exact hexUpper_ok _
      · exact hexUpper_ok _

theorem quotePlusChars_ok (s : String) :
    ∀ c ∈ quotePlusChars s, c ≠ '?' ∧ c ≠ '&' ∧ c ≠ '=' := by
  intro c hc
  unfold quotePlusChars at hc
  obtain ⟨b, _, hcb⟩ := (mem_flatJoin _ _ _).mp hc
  exact quoteByte_ok b c hcb

theorem charUtf8_small (c : Char) (h : c.toNat < 128) : charUtf8 c = [c.toNat] := by
  simp [charUtf8, h]

theorem quotePlusChars_of_safe (s : String)
    (h : ∀ c ∈ s.data, isSafeByte c.toNat = true) : quotePlusChars s = s.data := by
  suffices hgen : ∀ l : List Char, (∀ c ∈ l, isSafeByte c.toNat = true) →
      flatJoin quoteByte (flatJoin charUtf8 l) = l from hgen s.data h
  intro l hl
  induction l with
  | nil => rfl
  | cons c cs ih =>
    have hc := hl c (by simp)
    have hlt : c.toNat < 128 := (isSafeByte_bounds _ hc).1
    have hq : quoteByte c.toNat = [c] := by
      unfold quoteByte
      rw [if_pos hc, Char.ofNat_toNat]
    simp only [flatJoin, charUtf8_small c hlt, List.singleton_append, hq,
      ih (fun x hx => hl x (by simp [hx])), List.cons_append, List.nil_append]

theorem b64Char_mem (n : Nat) : b64Char n ∈ b64UrlAlphabet := by
  unfold b64Char
  rcases getD_mem_or_default b64UrlAlphabet n '_' with h | h
  · exact h
  · rw [h]; decide

theorem b64_alphabet_safe : ∀ c ∈ b64UrlAlphabet, isSafeByte c.toNat = true := by decide

theorem dropWhile_append_of_ne_nil {α : Type} (p : α → Bool) (l m : List α)
    (h : l.dropWhile p ≠ []) : (l ++ m).dropWhile p = l.dropWhile p ++ m := by
  induction l with
  | nil => simp at h
  | cons x xs ih =>
    cases hx : p x with
    | true =>
      rw [List.dropWhile_cons_of_pos hx] at h
      rw [List.cons_append, List.dropWhile_cons_of_pos hx,
        List.dropWhile_cons_of_pos hx]
      exact ih h
    | false =>
      rw [List.cons_append, List.dropWhile_cons_of_neg (by simp [hx]),
        List.dropWhile_cons_of_neg (by simp [hx]), List.cons_append]

theorem stripChars_b64 : ∀ bs : List Nat, bs.length % 3 = 2 →
    ((b64Chars bs).reverse.dropWhile (fun c => c == '=')).reverse ≠ [] ∧
    ∀ c ∈ ((b64Chars bs).reverse.dropWhile (fun c => c == '=')).reverse, c ∈ b64UrlAlphabet
  | [] => by intro h; simp at h
  | [b0] => by intro h; simp at h
  | [b0, b1] => by
    intro _
    have hC : b64Char (b1 % 16 * 4) ∈ b64UrlAlphabet := b64Char_mem _
    have hCne : (b64Char (b1 % 16 * 4) == '=') = false := by
      have hne : b64Char (b1 % 16 * 4) ≠ '=' := by
        intro h; rw [h] at hC; revert hC; decide
      simp [hne]
    have hrev : (b64Chars [b0, b1]).reverse =
        '=' :: b64Char (b1 % 16 * 4) :: b64Char (b0 % 4 * 16 + b1 / 16) ::
          [b64Char (b0 / 4)] := by
      simp [b64Chars]
    rw [hrev, List.dropWhile_cons_of_pos (by decide),
      List.dropWhile_cons_of_neg (by simp [hCne])]
    constructor
    · simp
    · intro c hc
      simp only [List.reverse_cons, List.reverse_nil, List.nil_append, List.mem_append,
        List.mem_singleton, List.cons_append, List.mem_cons, List.not_mem_nil] at hc
      rcases hc with rfl | rfl | rfl | hc
      · exact b64Char_mem _
      · exact b64Char_mem _
      · exact b64Char_mem _
      · exact absurd hc (by simp)
  | b0 :: b1 :: b2 :: rest => by
    intro h
    have h' : rest.length % 3 = 2 := by
      simp only [List.length_cons] at h
      omega
    obtain ⟨ih1, ih2⟩ := stripChars_b64 rest h'
    have hynn : (b64Chars rest).reverse.dropWhile (fun c => c == '=') ≠ [] := by
      intro hcon
      exact ih1 (by rw [hcon]; rfl)
    have hexp : (b64Chars (b0 :: b1 :: b2 :: rest)).reverse =
        (b64Chars rest).reverse ++ [b64Char (b2 % 64), b64Char (b1 % 16 * 4 + b2 / 64),
          b64Char (b0 % 4 * 16 + b1 / 16), b64Char (b0 / 4)] := by
      simp [b64Chars]
    rw [hexp, dropWhile_append_of_ne_nil _ _ _ hynn, List.reverse_append]
    constructor
    · simp
    · intro c hc
      simp only [List.mem_append] at hc
      rcases hc with hc | hc
      · revert hc
        simp only [List.reverse_cons, List.reverse_nil, List.nil_append, List.cons_append,
          List.mem_cons, List.not_mem_nil, List.mem_append, List.mem_singleton]
        rintro (rfl | rfl | rfl | rfl | hfalse)
        · exact b64Char_mem _
        · exact b64Char_mem _
        · exact b64Char_mem _
        · exact b64Char_mem _
        · exact absurd hfalse (by simp)
      · exact ih2 c hc

theorem sha256_length (msg : List Nat) : (sha256 msg).length = 32 := by
  simp [sha256, flatJoin, be32]

theorem takeWhile_fixed (p : Char → Bool) (a b : List Char) (x : Char)
    (ha : ∀ c ∈ a, p c = true) (hx : p x = false) :
    (a ++ x :: b).takeWhile p = a := by
  induction a with
  | nil => simp [List.takeWhile_cons, hx]
  | cons y ys ih =>
    have hy := ha y (by simp)
    simp [List.takeWhile_cons, hy, ih (fun c hc => ha c (by simp [hc]))]

theorem drop_fixed (a b : List Char) (x : Char) :
    (a ++ x :: b).drop (a.length + 1) = b := by
  have hsplit : a ++ x :: b = (a ++ [x]) ++ b := by simp
  have hlen : (a ++ [x]).length = a.length + 1 := by simp
  rw [hsplit, ← hlen, List.drop_left]

theorem splitOnChar_not_mem (c : Char) (l : List Char) (h : c ∉ l) :
    splitOnChar c l = [l] := by
  induction l with
  | nil => rfl
  | cons x xs ih =>
    have hx : ¬ x = c := by intro hh; exact h (by simp [hh])
    have ihx := ih (fun hm => h (by simp [hm]))
    simp [splitOnChar, hx, ihx]

theorem splitOnChar_append (c : Char) (a b : List Char) (h : c ∉ a) :
    splitOnChar c (a ++ c :: b) = a :: splitOnChar c b := by
  induction a with
  | nil => simp [splitOnChar]
  | cons x xs ih =>
    have hx : ¬ x = c := by intro hh; exact h (by simp [hh])
    have ihx := ih (fun hm => h (by simp [hm]))
    simp [splitOnChar, hx, ihx]

theorem afterFirst_append (ch : Char) (a q : List Char) (h : ch ∉ a) :
    afterFirst ch (a ++ ch :: q) = some q := by
  induction a with
  | nil => simp [afterFirst]
  | cons x xs ih =>
    have hx : ¬ x = ch := by intro hh; exact h (by simp [hh])
    simp [afterFirst, hx, ih (fun hm => h (by simp [hm]))]

theorem chunkValue_ne (key k v : List Char) (hk : ∀ c ∈ k, c ≠ '=') (hne : ¬ k = key) :
    chunkValue key (k ++ '=' :: v) = none := by
  unfold chunkValue
  rw [takeWhile_fixed _ k v '=' (fun c hc => by simp [hk c hc]) (by simp)]
  rw [if_neg (fun hcon => hne hcon.1)]

theorem chunkValue_eq (key v : List Char) (hkey : ∀ c ∈ key, c ≠ '=') :
    chunkValue key (key ++ '=' :: v) = some v := by
  unfold chunkValue
  rw [takeWhile_fixed _ key v '=' (fun c hc => by simp [hkey c hc]) (by simp)]
  rw [if_pos ⟨rfl, by simp⟩, drop_fixed]

theorem amp_not_mem_encodePair (k v : String) : '&' ∉ encodePair (k, v) := by
  intro hm
  unfold encodePair at hm
  rcases List.mem_append.mp hm with h | h
  · exact (quotePlusChars_ok k '&' h).2.1 rfl
  · rcases List.mem_cons.mp h with h | h
    · exact absurd h (by decide)
    · exact (quotePlusChars_ok v '&' h).2.1 rfl

theorem queryParam_encoded (auth cid ruri scp stt ch : String)
    (hq : '?' ∉ auth.data)
    (hch : quotePlusChars ch = ch.data) :
    queryParam (auth ++ "?" ++ urlencode
        [("response_type", "code"), ("client_id", cid), ("redirect_uri", ruri),
         ("scope", scp), ("state", stt), ("code_challenge", ch),
         ("code_challenge_method", "S256")]) "code_challenge" = some ch := by
  unfold queryParam queryParamChars
  have hdata : (auth ++ "?" ++ urlencode
      [("response_type", "code"), ("client_id", cid), ("redirect_uri", ruri),
       ("scope", scp), ("state", stt), ("code_challenge", ch),
       ("code_challenge_method", "S256")]).data =
      auth.data ++ '?' :: joinAmp
        ([("response_type", "code"), ("client_id", cid), ("redirect_uri", ruri),
          ("scope", scp), ("state", stt), ("code_challenge", ch),
          ("code_challenge_method", "S256")].map encodePair) := by
    simp [String.data_append, urlencode]
  rw [hdata, afterFirst_append _ _ _ hq]
  simp only [List.map_cons, List.map_nil, joinAmp]
  rw [splitOnChar_append '&' _ _ (amp_not_mem_encodePair _ _),
    splitOnChar_append '&' _ _ (amp_not_mem_encodePair _ _),
    splitOnChar_append '&' _ _ (amp_not_mem_encodePair _ _),
    splitOnChar_append '&' _ _ (amp_not_mem_encodePair _ _),
    splitOnChar_append '&' _ _ (amp_not_mem_encodePair _ _),
    splitOnChar_append '&' _ _ (amp_not_mem_encodePair _ _),
    splitOnChar_not_mem '&' _ (amp_not_mem_encodePair _ _)]
  have hc1 : chunkValue "code_challenge".data (encodePair ("response_type", "code")) =
      none := by
    show chunkValue "code_challenge".data
      (quotePlusChars "response_type" ++ '=' :: quotePlusChars "code") = none
    exact chunkValue_ne _ _ _ (fun c hc => (quotePlusChars_ok _ c hc).2.2) (by decide)
  have hc2 : chunkValue "code_challenge".data (encodePair ("client_id", cid)) = none := by
    show chunkValue "code_challenge".data
      (quotePlusChars "client_id" ++ '=' :: quotePlusChars cid) = none
    exact chunkValue_ne _ _ _ (fun c hc => (quotePlusChars_ok _ c hc).2.2) (by decide)
  have hc3 : chunkValue "code_challenge".data (encodePair ("redirect_uri", ruri)) =
      none := by
    show chunkValue "code_challenge".data
      (quotePlusChars "redirect_uri" ++ '=' :: quotePlusChars ruri) = none
    exact chunkValue_ne _ _ _ (fun c hc => (quotePlusChars_ok _ c hc).2.2) (by decide)
  have hc4 : chunkValue "code_challenge".data (encodePair ("scope", scp)) = none := by
    show chunkValue "code_challenge".data
      (quotePlusChars "scope" ++ '=' :: quotePlusChars scp) = none
    exact chunkValue_ne _ _ _ (fun c hc => (quotePlusChars_ok _ c hc).2.2) (by decide)
  have hc5 : chunkValue "code_challenge".data (encodePair ("state", stt)) = none := by
    show chunkValue "code_challenge".data
      (quotePlusChars "state" ++ '=' :: quotePlusChars stt) = none
    exact chunkValue_ne _ _ _ (fun c hc => (quotePlusChars_ok _ c hc).2.2) (by decide)
  have hc6 : chunkValue "code_challenge".data (encodePair ("code_challenge", ch)) =
      some ch.data := by
    show chunkValue "code_challenge".data
      (quotePlusChars "code_challenge" ++ '=' :: quotePlusChars ch) = some ch.data
    rw [show quotePlusChars "code_challenge" = "code_challenge".data from by decide, hch]
    exact chunkValue_eq _ _ (by decide)
  simp only [firstSome, hc1, hc2, hc3, hc4, hc5, hc6]
  rfl

/-- C1: for a configured service, the URL produced by
`generate_authorization_url` carries a `code_challenge` query parameter
equal to the URL-safe base64 (no padding) SHA-256 digest of exactly the
verifier that is cached under `(service, returned state)`.  The hypothesis
that the configured authorization endpoint contains no question mark makes
the query part of the produced URL well defined. -/
theorem generate_url_code_challenge (st : ManagerState) (svc : String) (cfg : OAuth2Config)
    (stateArg : Option String) (freshState : String) (randomBytes : List Nat)
    (hcfg : dictLookup svc st.configs = some cfg)
    (hq : '?' ∉ cfg.authorization_url.data) :
    ∃ url state st' verifier,
      generate_authorization_url st svc stateArg freshState randomBytes =
        (.ok (url, state), st') ∧
      lookupVerifier st' svc state = some verifier ∧
      queryParam url "code_challenge" =
        some (rstripEq (base64urlEncode (sha256 (strBytes verifier)))) := by
  have hlen : (sha256 (strBytes (rstripEq (base64urlEncode randomBytes)))).length % 3 = 2 := by
    rw [sha256_length]
  obtain ⟨_, hmem⟩ := stripChars_b64 _ hlen
  have hsafe : ∀ c ∈ (rstripEq (base64urlEncode (sha256 (strBytes
      (rstripEq (base64urlEncode randomBytes)))))).data, isSafeByte c.toNat = true :=
    fun c hc => b64_alphabet_safe c (hmem c hc)
  have hchid := quotePlusChars_of_safe _ hsafe
  have hg : generate_authorization_url st svc stateArg freshState randomBytes =
      (.ok (cfg.authorization_url ++ "?" ++ urlencode
        [("response_type", "code"), ("client_id", cfg.client_id),
         ("redirect_uri", cfg.redirect_uri), ("scope", cfg.scope),
         ("state", genState stateArg freshState),
         ("code_challenge", rstripEq (base64urlEncode (sha256 (strBytes
           (rstripEq (base64urlEncode randomBytes)))))),
         ("code_challenge_method", "S256")],
        genState stateArg freshState),
       { st with codeVerifiers := some (dictInsert
           (verifierKey svc (genState stateArg freshState))
           (rstripEq (base64urlEncode randomBytes)) (st.codeVerifiers.getD [])) }) := by
    simp only [generate_authorization_url, hcfg]
  refine ⟨_, _, _, rstripEq (base64urlEncode randomBytes), hg, ?_, ?_⟩
  · simp only [lookupVerifier, Option.bind]
    exact dictLookup_dictInsert_self _ _ _
  · exact queryParam_encoded cfg.authorization_url cfg.client_id cfg.redirect_uri
      cfg.scope (genState stateArg freshState) _ hq hchid

/-- Witness for C1 at a concrete configured service. -/
theorem generate_url_code_challenge_witness :
    ∃ url state st' verifier,
      generate_authorization_url demoConfigState "salesforce" none "st123" [1, 2, 3] =
        (.ok (url, state), st') ∧
      lookupVerifier st' "salesforce" state = some verifier ∧
      queryParam url "code_challenge" =
        some (rstripEq (base64urlEncode (sha256 (strBytes verifier)))) :=
  generate_url_code_challenge demoConfigState "salesforce" demoConfig none "st123"
    [1, 2, 3] rfl (by decide)

/-- Witness for C10 at a concrete state with a cached verifier and a
transport failure. -/
theorem exchange_consumes_verifier_first_witness :
    ∃ e st1, exchange_code_for_token demoVerifierState "salesforce" "abc123" "xyz"
        .transportError 0 = (.error e, st1, 1) ∧
      st1.tokens = demoVerifierState.tokens ∧
      lookupVerifier st1 "salesforce" "xyz" = none ∧
      (∀ code' resp' now', ∃ e',
        exchange_code_for_token st1 "salesforce" code' "xyz" resp' now' =
          (.error e', st1, 0) ∧
        isStateMismatch e' = true) :=
  exchange_consumes_verifier_first demoVerifierState "salesforce" "abc123" "xyz"
    .transportError 0 demoConfig [("salesforce:xyz", "ver")] "ver" rfl rfl rfl (.inl rfl)

end OAuth2
